import Mathlib

/-!
Verification development for the node-tools repository.

The definitions below are a shallow embedding of the JavaScript/TypeScript
sources:

* `src/jsp-to-react-ai/index.js` — the HTTP file-processing server
  (`extractContentFromMarkdown`, the `/api/process-file` handler, the
  `/api/process-file-direct` streaming continuation loop, the two config
  save endpoints);
* `src/react-use-ai/src/components/WorkflowDesigner.tsx` — the workflow
  execution engine (`executeStepWithAPI`, `executeWorkflowWithRealAPI`,
  `executeTask`, `handleBatchExecute`, `stopTask`, `saveConfig`,
  `handleAdvancedBatchCreate`);
* `src/react-use-ai/src/components/MultiWorkflowManager.tsx` — whose
  `executeStepWithAPI` / `executeStep` duplicate the WorkflowDesigner logic
  verbatim.

Strings are modelled as `List Char` (JS strings are sequences of code
units; all inputs used here are plain characters).  JS exceptions are
modelled with `Except` / explicit result constructors, the JS event loop
by sequential state passing, and the unbounded recursion of the step
executor by an explicit fuel parameter whose exhaustion (`fuelOut`)
witnesses non-termination.
-/

namespace NodeTools

/-- Character-list strings, the model of JS strings. -/
abbrev StrL := List Char

/-- Convert a Lean string literal to the `List Char` model. -/
def str (s : String) : StrL := s.toList

/-- Whitespace recognised by JS `String.prototype.trim` (the subset relevant
to the character sets appearing in this repository: space, tab, LF, CR,
vertical tab, form feed, NBSP). -/
def isJsWs (c : Char) : Bool :=
  c = ' ' || c = '\t' || c = '\n' || c = '\r' || c = '\x0b' || c = '\x0c' || c = ' '

/-- JS `String.prototype.trim`: drop whitespace from both ends. -/
def jsTrim (s : StrL) : StrL :=
  ((s.dropWhile isJsWs).reverse.dropWhile isJsWs).reverse

/-!
## Fence extraction — `extractContentFromMarkdown` (`src/jsp-to-react-ai/index.js` lines 38-44)

The source applies the regex `/```(?:.*?\n)?([\s\S]*?)```/s` to the LLM
reply and returns `match[1].trim()` when it matches, and the input string
unchanged otherwise.  The functions below implement that regex's exact
backtracking semantics: the match anchors at the first triple-backtick;
the optional greedy group `(?:.*?\n)?` is tried first, with the lazy
`.*?` taking the smallest prefix ending in a newline such that a closing
triple-backtick still follows; if no such prefix exists the group is
skipped; the lazy capture then extends to the next triple-backtick.
-/

/-- Split a string at its first occurrence of three consecutive backticks,
returning the part before and the part after the three backticks. -/
def splitAtTriple : StrL → Option (StrL × StrL)
  | [] => none
  | c :: cs =>
    if c = '`' && decide (cs.take 2 = ['`', '`']) then some ([], cs.drop 2)
    else (splitAtTriple cs).map (fun pr => (c :: pr.1, pr.2))

/-- Whether a string contains three consecutive backticks. -/
def containsTriple (s : StrL) : Bool := (splitAtTriple s).isSome

/-- The contents before the first triple-backtick, when one exists. -/
def captureToTriple (s : StrL) : Option StrL := (splitAtTriple s).map Prod.fst

/-- Search for the smallest prefix of the text after the opening fence that
ends in a newline and is still followed by a closing triple-backtick; this is
the language-tag group `(?:.*?\n)?` of the extraction regex.  Returns the
lazy capture after that prefix. -/
def groupSearch : StrL → Option StrL
  | [] => none
  | c :: cs =>
    if c = '\n' && containsTriple cs then captureToTriple cs
    else groupSearch cs

/-- The capture group of `/```(?:.*?\n)?([\s\S]*?)```/s` on the input, when
the regex matches. -/
def regexCapture (s : StrL) : Option StrL :=
  match splitAtTriple s with
  | none => none
  | some (_, rest) =>
    match groupSearch rest with
    | some cap => some cap
    | none => captureToTriple rest

/-- Model of `extractContentFromMarkdown` (`src/jsp-to-react-ai/index.js`
lines 38-44): `return match ? match[1].trim() : markdown;` — note that in
the no-match branch the input is returned unchanged, not trimmed. -/
def extractContentFromMarkdown (markdown : StrL) : StrL :=
  match regexCapture markdown with
  | some g => jsTrim g
  | none => markdown

/-!
## The `/api/process-file` handler (`src/jsp-to-react-ai/index.js` lines 46-157)

Request fields are modelled directly; the filesystem is an oracle
`fsRead : StrL → Option StrL` (`none` = ENOENT), and the downstream LLM
service is an oracle `llm : StrL → Option StrL` mapping the combined
message to a reply (`none` = transport failure or a non-string reply —
both end in the 500 branch).  The handler picks the react-generation
service for `.jsx`/`.tsx` output names and the chat relay otherwise
(lines 79-126); both branches have the same shape — post the combined
content, take a string reply, extract — so one oracle covers both.  Side
effects (directory creation, file writes) are recorded in an ordered
effect list.
-/

/-- One entry of the request's `inputs` array. -/
inductive PFInput
  | file (path : StrL)
  | prompt (value : StrL)
deriving DecidableEq

/-- HTTP outcome of the handler: 200 with data, 400 for missing params,
400 for a missing input file (ENOENT), 500 for an LLM failure. -/
inductive PFRes
  | ok (path : StrL) (content : StrL)
  | missingParams
  | inputNotFound (path : StrL)
  | llmFailure
deriving DecidableEq

/-- Recorded filesystem side effects, in program order. -/
inductive PFEff
  | mkdirE (path : StrL)
  | writeE (path : StrL) (content : StrL)
deriving DecidableEq

/-- Node `path.join(outputFolder, outputFileName)`, modelled with a fixed
separator (the claims do not depend on the separator choice). -/
def pathJoin (folder name : StrL) : StrL := folder ++ '/' :: name

/-- The input-reading loop (lines 63-72): prompts contribute their value,
files are read from disk; the first failing read aborts with its path
(the ENOENT error carries `error.path`). -/
def readAllInputs (fsRead : StrL → Option StrL) : List PFInput → Except StrL (List StrL)
  | [] => .ok []
  | .prompt v :: rest => (readAllInputs fsRead rest).map (v :: ·)
  | .file p :: rest =>
    match fsRead p with
    | none => .error p
    | some c => (readAllInputs fsRead rest).map (c :: ·)

/-- `contentParts.join('\n')` (line 74). -/
def joinNl : List StrL → StrL
  | [] => []
  | [p] => p
  | p :: rest => p ++ '\n' :: joinNl rest

/-- Model of the `POST /api/process-file` handler (lines 46-157).  The
program order is: param validation, `fs.mkdir(outputFolder)`, input reads,
LLM call, fence extraction, output write.  `inputs = none` models an absent
`inputs` field; empty `outputFileName`/`outputFolder` are JS-falsy and
also rejected with 400 before any effect. -/
def processFile (fsRead : StrL → Option StrL) (llm : StrL → Option StrL)
    (inputs : Option (List PFInput)) (outputFileName outputFolder : StrL) :
    PFRes × List PFEff :=
  match inputs with
  | none => (.missingParams, [])
  | some ins =>
    if outputFileName = [] ∨ outputFolder = [] then (.missingParams, [])
    else
      let effs0 : List PFEff := [.mkdirE outputFolder]
      let outputFilePath := pathJoin outputFolder outputFileName
      match readAllInputs fsRead ins with
      | .error p => (.inputNotFound p, effs0)
      | .ok parts =>
        match llm (joinNl parts) with
        | none => (.llmFailure, effs0)
        | some reply =>
          let extracted := extractContentFromMarkdown reply
          (.ok outputFilePath extracted, effs0 ++ [.writeE outputFilePath extracted])

/-- The write effects contained in an effect list. -/
def writeEvents (effs : List PFEff) : List PFEff :=
  effs.filter fun e => match e with | .writeE _ _ => true | _ => false

/-!
## The `/api/process-file-direct` continuation loop (`src/jsp-to-react-ai/index.js` lines 251-306)

The handler keeps a `messages` list and repeats a streaming completion in a
`do … while (finishReason === 'length')` loop.  Each iteration concatenates
the stream's `delta.content` chunks into `currentIterationContent`, updates
`finishReason` from the chunks that carry one (keeping the previous value
when none arrives), appends the iteration's content to `aiContent`, and —
when the finish reason is `length` — pushes the assistant's partial content
and the fixed continuation prompt onto `messages` before re-issuing.
There is no iteration counter and no ceiling in the loop.
-/

/-- Message roles of the chat payload. -/
inductive Role
  | system
  | user
  | assistant
deriving DecidableEq

/-- One chat message. -/
structure Msg where
  role : Role
  content : StrL
deriving DecidableEq

/-- One streamed completion, summarised: the concatenation of its
`delta.content` chunks and the last `finish_reason` it delivered (if any). -/
structure StreamResp where
  content : StrL
  finish : Option StrL
deriving DecidableEq

/-- The literal continuation prompt pushed at line 304. -/
def continuationPrompt : StrL :=
  str "请紧接着上面的内容继续写，确保无缝衔接，确保语法正确，不要重复，也不要说\"好的，我会继续\"这类的话，直接开始写。"

/-- Loop state: the message list, the accumulated `aiContent`, the number of
completion requests issued so far, and the current `finishReason` variable. -/
structure DirectState where
  messages : List Msg
  aiContent : StrL
  requests : Nat
  finishReason : Option StrL
deriving DecidableEq

/-- Initial state of the loop for a given starting message list (line 251:
system prompt plus the combined user content). -/
def initDirect (ms : List Msg) : DirectState :=
  { messages := ms, aiContent := [], requests := 0, finishReason := none }

/-- The `do … while (finishReason === 'length')` loop (lines 261-306), fed
by the list of streamed responses the vendor would deliver for successive
requests.  `none` means the loop asked for one more completion than the
environment provides.  Each iteration consumes one response; there is no
bound on the number of iterations. -/
def runDirectLoop : List StreamResp → DirectState → Option DirectState
  | [], _ => none
  | r :: rs, st =>
    let fr := match r.finish with
      | some f => some f
      | none => st.finishReason
    let st1 : DirectState :=
      { messages := st.messages, aiContent := st.aiContent ++ r.content,
        requests := st.requests + 1, finishReason := fr }
    if fr = some (str "length") then
      runDirectLoop rs
        { st1 with
          messages := st1.messages ++
            [⟨.assistant, r.content⟩, ⟨.user, continuationPrompt⟩] }
    else
      some st1

/-- A response whose finish reason is `length` (it carries the given
content). -/
def lengthResp (c : StrL) : StreamResp := ⟨c, some (str "length")⟩

/-- A response whose finish reason is `stop`. -/
def stopResp (c : StrL) : StreamResp := ⟨c, some (str "stop")⟩

/-!
## Prompt interleaving — `executeStepWithAPI`
(`src/react-use-ai/src/components/WorkflowDesigner.tsx` lines 1986-2045,
duplicated at `MultiWorkflowManager.tsx` lines 505-564)

The source first collects all tokens with
`content.match(/\x7b\x7b([^\x7d]+)\x7d\x7d/g)`, then splits the content by
repeated `indexOf`/`substring` around each token, pushing trimmed
non-empty `prompt` segments and one `file` segment per token.  When the
content has no token at all, the whole content is pushed as a single
`prompt` segment verbatim (lines 1995-2000) — without trimming.
-/

/-- One entry of the `inputs` array produced for the processing API. -/
inductive Segment
  | promptSeg (value : StrL)
  | fileSeg (value : StrL)
deriving DecidableEq

/-- Decidable equality for `Except`, needed to evaluate the models on
concrete inputs inside proofs. -/
instance {ε α : Type} [DecidableEq ε] [DecidableEq α] : DecidableEq (Except ε α) := fun a b =>
  match a, b with
  | .ok x, .ok y =>
    if h : x = y then .isTrue (by rw [h]) else .isFalse (by intro hc; cases hc; exact h rfl)
  | .error x, .error y =>
    if h : x = y then .isTrue (by rw [h]) else .isFalse (by intro hc; cases hc; exact h rfl)
  | .ok _, .error _ => .isFalse (by intro hc; cases hc)
  | .error _, .ok _ => .isFalse (by intro hc; cases hc)

/-- The character class `[^\x7d]` of the token regex. -/
def notCloseBrace (x : Char) : Bool := x ≠ '}'

/-- Global scan of `/\x7b\x7b([^\x7d]+)\x7d\x7d/g`, with an explicit fuel
parameter so that the recursion is structural (every recursive call strictly
shrinks the input, so fuel equal to the input length is always enough): at
each position a match requires two opening braces, a non-empty run of
non-`\x7d` characters (the greedy `[^\x7d]+` necessarily stops at the first
closing brace), and two closing braces; on success the scan resumes after
the match, on failure it advances one character.  Returns the full matched
token strings. -/
def scanTokensF : Nat → StrL → List StrL
  | 0, _ => []
  | _ + 1, [] => []
  | fuel + 1, c :: rest =>
    if c = '{' then
      match rest with
      | [] => []
      | c2 :: rest2 =>
        if c2 = '{' then
          let run := rest2.takeWhile notCloseBrace
          let after := rest2.dropWhile notCloseBrace
          if run.length > 0 && decide (after.take 2 = ['}', '}']) then
            ('{' :: '{' :: (run ++ ['}', '}'])) :: scanTokensF fuel (after.drop 2)
          else scanTokensF fuel (c2 :: rest2)
        else scanTokensF fuel (c2 :: rest2)
    else scanTokensF fuel rest

/-- The token scan of `content.match(/\x7b\x7b([^\x7d]+)\x7d\x7d/g)`. -/
def scanTokens (s : StrL) : List StrL := scanTokensF s.length s

/-- JS `fileRef.replace(/[\x7b\x7d]/g, '')`: strip every brace. -/
def stripBraces (s : StrL) : StrL := s.filter fun c => !(c = '{' || c = '}')

/-- First index at which `sub` occurs in the string, JS `indexOf` (as an
`Option`; the source's `-1` sentinel is reconstructed at the use site). -/
def indexOfSub (sub : StrL) : StrL → Option Nat
  | [] => if sub = [] then some 0 else none
  | c :: rest =>
    if sub.isPrefixOf (c :: rest) then some 0
    else (indexOfSub sub rest).map (· + 1)

/-- Lookup in the `filePathMap` (a JS `Map` keyed by `fileInputs[*].name`). -/
def lookupMap (m : List (StrL × StrL)) (k : StrL) : Option StrL :=
  (m.find? fun pr => pr.1 = k).map Prod.snd

/-- The token-consuming loop of lines 2003-2043: for each token, look up its
file path (throwing on an unknown name), find the token in the remaining
content, push the trimmed text before it when non-empty, push the file
segment, and continue with the text after the token; finally push the
trimmed remainder when non-empty. -/
def splitLoop (m : List (StrL × StrL)) :
    List StrL → StrL → List Segment → Except StrL (List Segment)
  | [], remaining, acc =>
    let tailSeg := jsTrim remaining
    .ok (acc ++ if tailSeg ≠ [] then [.promptSeg tailSeg] else [])
  | tok :: toks, remaining, acc =>
    let nm := stripBraces tok
    match lookupMap m nm with
    | none => .error nm
    | some filePath =>
      let refIndex : Int := match indexOfSub tok remaining with
        | some i => (i : Int)
        | none => -1
      let acc1 :=
        if refIndex > 0 then
          let beforeSeg := jsTrim (remaining.take refIndex.toNat)
          if beforeSeg ≠ [] then acc ++ [.promptSeg beforeSeg] else acc
        else acc
      splitLoop m toks (remaining.drop (refIndex + tok.length).toNat)
        (acc1 ++ [.fileSeg filePath])

/-- Segment sequence produced for one prompt input (lines 1989-2045):
no token → one verbatim `prompt` segment; otherwise the splitting loop. -/
def processPromptContent (m : List (StrL × StrL)) (content : StrL) :
    Except StrL (List Segment) :=
  match scanTokens content with
  | [] => .ok [.promptSeg content]
  | toks => splitLoop m toks content []

/-- Concatenation of the segments across the step's prompt inputs, in
user-specified order; an unknown token name anywhere fails the step. -/
def processPromptInputs (m : List (StrL × StrL)) : List StrL → Except StrL (List Segment)
  | [] => .ok []
  | content :: rest => do
    let segs ← processPromptContent m content
    let more ← processPromptInputs m rest
    .ok (segs ++ more)

/-!
## The workflow runner — `executeWorkflowWithRealAPI`
(`src/react-use-ai/src/components/WorkflowDesigner.tsx` lines 2069-2135;
`handleQuickExecute` at `MultiWorkflowManager.tsx` lines 588-751 has the
identical recursive structure)

The runner resets all steps to `pending`, sorts them by `order`, and runs a
recursive `executeStep`: first recurse into each not-yet-executed
dependency (looked up by id in `workflow.steps`), then — unless the step
already executed — set its status to `running`, call `executeStepWithAPI`
(abstracted here as an oracle `api : StrL → Bool` recording each
invocation), and on success mark `success`/record the result/add to
`executedSteps`, on failure mark `error` and re-throw, which aborts the
whole run.  There is no acyclicity check anywhere, and no code path ever
assigns status `skipped`.  The recursion depth is unbounded in the source;
the model makes it explicit with a fuel parameter: `fuelOut` is the outcome
"still recursing when the bound ran out", for every bound — i.e.
non-termination.
-/

/-- Runtime step status (`WorkflowDesigner.tsx` line 63). -/
inductive StepStatus
  | pending
  | running
  | success
  | error
  | skipped
deriving DecidableEq

/-- A workflow step as the runner consumes it: id, `order`, and the
`dependencies` id list.  (The `config` payload is handled inside
`executeStepWithAPI`, abstracted by the `api` oracle here.) -/
structure WfStep where
  id : StrL
  order : Nat
  dependencies : List StrL
deriving DecidableEq

/-- Mutable run state: per-step statuses, the `stepResults` map (success
flag per step), the `executedSteps` set, and the record of
`executeStepWithAPI` invocations (each of which issues the LLM-backed
processing request). -/
structure RunState where
  statuses : List (StrL × StepStatus)
  results : List (StrL × Bool)
  executed : List StrL
  apiCalls : List StrL
deriving DecidableEq

/-- Update a step's status in place. -/
def setStatus (st : RunState) (sid : StrL) (v : StepStatus) : RunState :=
  { st with statuses := st.statuses.map fun pr => if pr.1 = sid then (pr.1, v) else pr }

/-- Status of a step in the run state. -/
def statusOf (st : RunState) (sid : StrL) : Option StepStatus :=
  (st.statuses.find? fun pr => pr.1 = sid).map Prod.snd

/-- Outcome of a (sub)execution: normal completion, a thrown JS error
propagating out (with the state at the throw), or fuel exhaustion — the
recursion still running at the given bound. -/
inductive ExecRes
  | okR (st : RunState)
  | thrown (st : RunState)
  | fuelOut (st : RunState)
deriving DecidableEq

/-- Work items of the recursive `executeStep`: run one step (dependencies
first), or walk a dependency list. -/
inductive ExecJob
  | one (step : WfStep)
  | deps (ds : List StrL)
deriving DecidableEq

/-- The body of `executeStep` after its dependency loop (lines 2093-2120):
skip if already executed; else mark `running`, invoke the API, and either
mark `success` and record the result and executed-set membership, or mark
`error`, record the failure result, and throw. -/
def execBody (api : StrL → Bool) (step : WfStep) (st : RunState) : ExecRes :=
  if st.executed.contains step.id then .okR st
  else
    let st1 := setStatus st step.id .running
    let st2 := { st1 with apiCalls := st1.apiCalls ++ [step.id] }
    if api step.id then
      .okR { setStatus st2 step.id .success with
             results := st2.results ++ [(step.id, true)],
             executed := st2.executed ++ [step.id] }
    else
      .thrown { setStatus st2 step.id .error with
                results := st2.results ++ [(step.id, false)] }

/-- The recursive `executeStep` (lines 2082-2121), fuel-indexed.  A `one`
job first walks the step's dependency list, then runs the body; a `deps`
job recurses into each dependency that is not yet in `executedSteps` and
is found in `workflow.steps`.  Thrown errors propagate; fuel exhaustion
propagates. -/
def execStep (api : StrL → Bool) (steps : List WfStep) :
    Nat → ExecJob → RunState → ExecRes
  | 0, _, st => .fuelOut st
  | fuel + 1, .one step, st =>
    match execStep api steps fuel (.deps step.dependencies) st with
    | .okR st' => execBody api step st'
    | r => r
  | _ + 1, .deps [], st => .okR st
  | fuel + 1, .deps (d :: ds), st =>
    if st.executed.contains d then execStep api steps fuel (.deps ds) st
    else
      match steps.find? (fun s => s.id = d) with
      | none => execStep api steps fuel (.deps ds) st
      | some dstep =>
        match execStep api steps fuel (.one dstep) st with
        | .okR st' => execStep api steps fuel (.deps ds) st'
        | r => r

/-- Stable insertion sort by ascending `order` —
`workflow.steps.sort((a, b) => a.order - b.order)` (line 2124). -/
def insertByOrder (s : WfStep) : List WfStep → List WfStep
  | [] => [s]
  | t :: ts => if s.order ≤ t.order then s :: t :: ts else t :: insertByOrder s ts

/-- Sort the step list by ascending `order`. -/
def sortByOrder : List WfStep → List WfStep
  | [] => []
  | s :: ss => insertByOrder s (sortByOrder ss)

/-- Initial run state after the reset of line 2073: every step `pending`,
no results, nothing executed, no API call issued. -/
def initState (wf : List WfStep) : RunState :=
  { statuses := wf.map fun s => (s.id, .pending),
    results := [], executed := [], apiCalls := [] }

/-- The top-level loop over the sorted steps (lines 2124-2128): run each
not-yet-executed step; a thrown error rejects the whole workflow promise
and stops the loop. -/
def runSteps (api : StrL → Bool) (steps : List WfStep) (fuel : Nat) :
    List WfStep → RunState → ExecRes
  | [], st => .okR st
  | s :: rest, st =>
    if st.executed.contains s.id then runSteps api steps fuel rest st
    else
      match execStep api steps fuel (.one s) st with
      | .okR st' => runSteps api steps fuel rest st'
      | r => r

/-- Model of `executeWorkflowWithRealAPI` (lines 2069-2135): reset, sort by
`order`, execute. -/
def runWorkflow (api : StrL → Bool) (wf : List WfStep) (fuel : Nat) : ExecRes :=
  runSteps api (sortByOrder wf) fuel (sortByOrder wf) (initState wf)

/-- First step of the cyclic workflow: depends on `s2`. -/
def cycS1 : WfStep := ⟨str "s1", 0, [str "s2"]⟩

/-- Second step of the cyclic workflow: depends on `s1`. -/
def cycS2 : WfStep := ⟨str "s2", 1, [str "s1"]⟩

/-- The two-step cyclic workflow: `s1` depends on `s2` and `s2` depends on
`s1`. -/
def cyclicWf : List WfStep := [cycS1, cycS2]

/-- A linear two-step workflow: `s2` depends on `s1`. -/
def linearWf : List WfStep :=
  [⟨str "s1", 0, []⟩, ⟨str "s2", 1, [str "s1"]⟩]

/-- An API oracle that fails exactly step `s1`. -/
def apiFailS1 (sid : StrL) : Bool := !(sid = str "s1")

/-!
## Scheduler admission and the batch concurrency cap
(`src/react-use-ai/src/components/WorkflowDesigner.tsx`: the guard of
`executeTask` at lines 2146-2161, `handleBatchExecute` at lines 2406-2453)

`executeTask` rejects when `executingTasks.size >= maxConcurrentTasks`
(line 2148) and otherwise adds the task to `executingTasks` (line 2161);
it removes the task again in the `finally` block (lines 2339-2346).
`handleBatchExecute` spawns `Math.min(maxConcurrentTasks,
idleTasks.length)` sequential workers (line 2440).  The running
set is modelled as the list of executing task ids, transitions as enter
(guarded by the cap) and finish.
-/

/-- `const [maxConcurrentTasks] = useState(6)` (line 1146). -/
def maxConcurrentTasks : Nat := 6

/-- The concurrency guard of `executeTask` (lines 2148-2161), for a task
that passed the existence/executable-workflow checks: reject when the
executing set has reached the cap, otherwise add the task id to it. -/
def executeTaskGuard (executing : List StrL) (taskId : StrL) : Option (List StrL) :=
  if executing.length ≥ maxConcurrentTasks then none
  else some (taskId :: executing)

/-- `const concurrentCount = Math.min(maxConcurrentTasks, idleTasks.length)`
(line 2440): the number of workers `handleBatchExecute` spawns. -/
def concurrentCount (idleTaskCount : Nat) : Nat :=
  min maxConcurrentTasks idleTaskCount

/-- Scheduler transitions over the executing-task set: admission through
the `executeTask` guard, and completion (the `finally` removal). -/
inductive SchedStep : List StrL → List StrL → Prop
  | enter (ex : List StrL) (taskId : StrL) (ex' : List StrL)
      (h : executeTaskGuard ex taskId = some ex') : SchedStep ex ex'
  | finish (ex : List StrL) (taskId : StrL) : SchedStep ex (ex.erase taskId)

/-- States of the executing set reachable from the idle start (no task
executing). -/
def SchedReachable (ex : List StrL) : Prop :=
  Relation.ReflTransGen SchedStep [] ex

/-!
## Task execution and `stopTask`
(`src/react-use-ai/src/components/WorkflowDesigner.tsx`: the workflow loop
of `executeTask` at lines 2194-2253, `stopTask` at lines 2350-2403)

`stopTask` sets the task execution's `isRunning` to false with an
`endTime`, sets the group's status to `idle` with `executionResults.endTime`
and duration, and removes the task from `executingTasks` — and nothing
else: neither the `for` loop of `executeTask` nor
`executeWorkflowWithRealAPI` reads any abort signal, so the loop keeps
executing the remaining workflows.  The model is a transition system over
the task-run view; the workflow-execution transition is deliberately not
guarded by the stopped flag, because the source has no such guard.
-/

/-- Task status (`WorkflowGroup.status`). -/
inductive GroupStatus
  | idle
  | running
  | completed
  | failed
deriving DecidableEq

/-- Observable state of one task run: how many workflows the loop has
executed, whether `stopTask` ran, the group status, and whether
`executionResults.endTime` has been set. -/
structure TaskRunState where
  wfDone : Nat
  stopped : Bool
  status : GroupStatus
  endTimeSet : Bool
deriving DecidableEq

/-- State at the start of `executeTask` (lines 2176-2190): status
`running`, no workflow executed, no end time. -/
def taskRunInit : TaskRunState :=
  { wfDone := 0, stopped := false, status := .running, endTimeSet := false }

/-- The effect of `stopTask` (lines 2350-2389): status `idle`,
`endTime` set, task marked stopped (removed from `executingTasks`). -/
def stopTaskEffect (s : TaskRunState) : TaskRunState :=
  { s with stopped := true, status := .idle, endTimeSet := true }

/-- Transitions of a task run over `total` workflows: the loop body of
lines 2198-2253 executes the next workflow — with no guard on `stopped`,
mirroring the absence of any abort check in the source — and `stopTask`
may fire at any point. -/
inductive TaskStep (total : Nat) : TaskRunState → TaskRunState → Prop
  | execWorkflow (s : TaskRunState) (h : s.wfDone < total) :
      TaskStep total s { s with wfDone := s.wfDone + 1 }
  | stop (s : TaskRunState) : TaskStep total s (stopTaskEffect s)

/-- Reachability for task-run traces. -/
def TaskReachable (total : Nat) (s : TaskRunState) : Prop :=
  Relation.ReflTransGen (TaskStep total) taskRunInit s

/-!
## Configuration save — `saveConfig`
(`src/react-use-ai/src/components/WorkflowDesigner.tsx` lines 1264-1305)
and the server's `POST /api/multi-stream/save`
(`src/jsp-to-react-ai/index.js` lines 527-566)

`saveConfig` loads the existing document, spreads it, replaces
`workflowGroups` with the new groups — resetting `status` to `pending` and
`result` to `undefined` for every step under
`workflowGroups[*].template.workflows[*].steps` — and replaces
`workflowGroupTemplates` with the given template list *as is* (line 1289:
`workflowGroupTemplates: newTemplates || templates`, no stripping).  Every
other key of the existing document (such as a `workflows` array) is
carried through unchanged by the spread.  The server endpoint only adds
`lastUpdated`/`version` and strips nothing.
-/

/-- A persisted step: its runtime `status` and optional `result` (payload
irrelevant to the purity claim). -/
structure CfgStep where
  status : StepStatus
  result : Option Bool
deriving DecidableEq

/-- A persisted workflow. -/
structure CfgWorkflow where
  steps : List CfgStep
deriving DecidableEq

/-- A persisted template: a list of workflows. -/
structure CfgTemplate where
  workflows : List CfgWorkflow
deriving DecidableEq

/-- A persisted task ("workflow group"): its optional template. -/
structure CfgGroup where
  template : Option CfgTemplate
deriving DecidableEq

/-- The multi-file-stream configuration document: tasks, stored templates,
and a standalone `workflows` key (present when the document was also
written by the single-workflow mode). -/
structure MultiCfg where
  workflowGroups : List CfgGroup
  workflowGroupTemplates : List CfgTemplate
  workflows : List CfgWorkflow
deriving DecidableEq

/-- The per-step reset applied inside `saveConfig` (lines 1281-1285):
`status: 'pending', result: undefined`. -/
def stripStep (_s : CfgStep) : CfgStep :=
  { status := .pending, result := none }

/-- The stripping applied to one group's template (lines 1275-1288). -/
def stripGroup (g : CfgGroup) : CfgGroup :=
  { template := g.template.map fun t =>
      { workflows := t.workflows.map fun w => { steps := w.steps.map stripStep } } }

/-- Model of `saveConfig` (lines 1264-1305) composed with the server's
`/api/multi-stream/save` (which adds timestamps and strips nothing): the
document written to disk.  `existing` is the document returned by the
`/api/multi-stream/load` call at line 1266; `newGroups` and
`effectiveTemplates` are the arguments (`newTemplates || templates`). -/
def saveConfig (existing : MultiCfg) (newGroups : List CfgGroup)
    (effectiveTemplates : List CfgTemplate) : MultiCfg :=
  { workflowGroups := newGroups.map stripGroup,
    workflowGroupTemplates := effectiveTemplates,
    workflows := existing.workflows }

/-- Whether every step of a workflow list is `pending` with no result. -/
def workflowsPure (ws : List CfgWorkflow) : Bool :=
  ws.all fun w => w.steps.all fun s => s.status = .pending && s.result = none

/-- Whether every step of every template in a list is `pending` with no
result. -/
def templatesPure (ts : List CfgTemplate) : Bool :=
  ts.all fun t => workflowsPure t.workflows

/-- Whether every step below a group list is `pending` with no result. -/
def groupsPure (gs : List CfgGroup) : Bool :=
  gs.all fun g => match g.template with
    | none => true
    | some t => workflowsPure t.workflows

/-!
## Template materialization — `handleAdvancedBatchCreate`
(`src/react-use-ai/src/components/WorkflowDesigner.tsx` lines 1330-1482)

For each selection `(sourcePath, file)` the handler derives the file name,
the name without extension, the relative directory portion, and the
capitalized name, then rewrites each step's `fileInputs[*].path`,
`outputFileName` and `outputFolder`, and builds the task name and
description.  (Steps carrying a `config.filePath` field take the extra
placeholder branch of lines 1449-1460; the template used by the claims has
no such field, so that branch is not modelled.)
-/

/-- Split a string on a separator character — JS `String.split` with a
single-character separator (an empty input yields one empty field). -/
def splitOnChar (sep : Char) : StrL → List StrL
  | [] => [[]]
  | c :: cs =>
    match splitOnChar sep cs with
    | g :: gs => if c = sep then [] :: g :: gs else (c :: g) :: gs
    | [] => [[c]]

/-- Join fields with a separator character — JS `Array.join`. -/
def joinWithChar (sep : Char) : List StrL → StrL
  | [] => []
  | [g] => g
  | g :: gs => g ++ sep :: joinWithChar sep gs

/-- JS `Array.pop()` result on a split (the last field, `""` when the list
is empty — `split` never returns an empty list). -/
def lastField (l : List StrL) : StrL := l.getLastD []

/-- Whether `sub` occurs in `s` — JS `String.includes`. -/
def containsSub (sub : StrL) (s : StrL) : Bool := (indexOfSub sub s).isSome

/-- JS `str.replace(/\//g, '\\')`. -/
def slashToBackslash (s : StrL) : StrL := s.map fun c => if c = '/' then '\\' else c

/-- JS `str.replace(sub, repl)` with a string pattern: replace the first
occurrence only. -/
def replaceFirstSub (sub repl s : StrL) : StrL :=
  match indexOfSub sub s with
  | none => s
  | some i => s.take i ++ repl ++ s.drop (i + sub.length)

/-- Line 1336: `fullFilePath.split('/').pop()?.split('\\').pop() ||
fullFilePath.split('\\').pop() || fullFilePath` (empty string is falsy). -/
def batchFileName (fullFilePath : StrL) : StrL :=
  let a := lastField (splitOnChar '/' fullFilePath)
  let b := lastField (splitOnChar '\\' a)
  if b ≠ [] then b
  else
    let c := lastField (splitOnChar '\\' fullFilePath)
    if c ≠ [] then c else fullFilePath

/-- Lines 1337-1338: strip the final dot-extension when the name contains a
dot (`substring(0, lastIndexOf('.'))`). -/
def dropLastExt (fileName : StrL) : StrL :=
  if containsSub ['.'] fileName then
    (((fileName.reverse).dropWhile fun c => c ≠ '.').drop 1).reverse
  else fileName

/-- Lines 1341-1342: the directory portion of the selection's file path
(split on `/` when it contains one, else on `\`; all but the last field
joined with `/`; empty when flat). -/
def fileRelDir (fullFilePath : StrL) : StrL :=
  let parts :=
    if (splitOnChar '/' fullFilePath).length > 1 then splitOnChar '/' fullFilePath
    else splitOnChar '\\' fullFilePath
  if parts.length > 1 then joinWithChar '/' parts.dropLast else []

/-- Lines 1345-1349: upper-case the first character unless it is already an
ASCII capital (`finalFileName[0] < 'A' || finalFileName[0] > 'Z'`). -/
def capitalizeFirst (s : StrL) : StrL :=
  match s with
  | [] => []
  | c :: rest => if c < 'A' || c > 'Z' then c.toUpper :: rest else c :: rest

/-- A step's `fileInputs` entry as the batch-create handler rewrites it
(`path = []` models a missing/empty path, which is JS-falsy). -/
structure BatchFileInput where
  name : StrL
  path : StrL
deriving DecidableEq

/-- The step-config fields the batch-create handler rewrites. -/
structure BatchStep where
  fileInputs : List BatchFileInput
  outputFileName : StrL
  outputFolder : StrL
deriving DecidableEq

/-- Lines 1365-1413: rewrite one `fileInputs` entry.  The literal sentinel
name `接口文档` is left untouched; an entry with a truthy `path` is split
into directory and file name, the extension determines the new file name
(`.jsp` keeps the selection's exact file name, anything else uses the
capitalized base plus the original extension), the relative directory is
appended when missing, and only an entry whose *name* is `jsp` (with a
`.jsp` extension) receives the `sourcePath\fullFilePath` override. -/
def rewriteFileInput (sourcePath fullFilePath fileName finalFileName relDir : StrL)
    (inp : BatchFileInput) : BatchFileInput :=
  if inp.name = str "接口文档" then inp
  else if inp.path ≠ [] then
    let pathParts := splitOnChar '\\' inp.path
    let originalFileName := lastField pathParts
    let directory := joinWithChar '\\' pathParts.dropLast
    let originalExtension :=
      if containsSub ['.'] originalFileName then
        '.' :: lastField (splitOnChar '.' originalFileName)
      else []
    let newFileName :=
      if originalExtension = str ".jsp" then fileName
      else finalFileName ++ originalExtension
    let pre := slashToBackslash relDir
    let finalDirectory :=
      if relDir ≠ [] && !containsSub pre directory then
        if directory ≠ [] then directory ++ '\\' :: pre else pre
      else directory
    if inp.name = str "jsp" && originalExtension = str ".jsp" then
      { inp with path := sourcePath ++ '\\' :: fullFilePath }
    else
      { inp with path := finalDirectory ++ '\\' :: newFileName }
  else inp

/-- Lines 1418-1430: rewrite `outputFileName` to
`namePrefix + finalFileName + originalExtension` (when the current name has
a truthy extension) or `namePrefix + finalFileName`. -/
def rewriteOutputFileName (namePre finalFileName cur : StrL) : StrL :=
  if cur ≠ [] then
    let ext := if containsSub ['.'] cur then lastField (splitOnChar '.' cur) else []
    if ext ≠ [] then namePre ++ finalFileName ++ '.' :: ext
    else namePre ++ finalFileName
  else cur

/-- Lines 1433-1446: append the relative directory (with `\` separators) to
`outputFolder` when it is not already contained in it. -/
def rewriteOutputFolder (relDir cur : StrL) : StrL :=
  if cur ≠ [] then
    let pre := slashToBackslash relDir
    if relDir ≠ [] && !containsSub pre cur then cur ++ '\\' :: pre else cur
  else cur

/-- Lines 1356-1464: rewrite one template step for a selection. -/
def rewriteStep (sourcePath fullFilePath namePre : StrL) (s : BatchStep) : BatchStep :=
  let fileName := batchFileName fullFilePath
  let finalFileName := capitalizeFirst (dropLastExt fileName)
  let relDir := fileRelDir fullFilePath
  { fileInputs :=
      s.fileInputs.map (rewriteFileInput sourcePath fullFilePath fileName finalFileName relDir),
    outputFileName := rewriteOutputFileName namePre finalFileName s.outputFileName,
    outputFolder := rewriteOutputFolder relDir s.outputFolder }

/-- Lines 1351-1353: the task name — the `namePattern` with `{fileName}`
replaced by the capitalized base when a truthy pattern was given, else the
template literal `` `${values.namePrefix || '任务'}-${finalFileName}` ``. -/
def batchGroupName (namePattern : Option StrL) (namePre fullFilePath : StrL) : StrL :=
  let finalFileName := capitalizeFirst (dropLastExt (batchFileName fullFilePath))
  let pat := namePattern.getD []
  if pat ≠ [] then replaceFirstSub (str "\x7bfileName\x7d") finalFileName pat
  else (if namePre ≠ [] then namePre else str "任务") ++ '-' :: finalFileName

/-- A materialized task: its name and its rewritten steps (the remaining
group fields — id, timestamps, description — carry no claim content). -/
structure BatchTask where
  name : StrL
  steps : List BatchStep
deriving DecidableEq

/-- Lines 1330-1482: materialize the template's steps over one selection
`(sourcePath, file)` with the given `namePrefix`/`namePattern`. -/
def materializeTask (sourcePath fullFilePath namePre : StrL) (namePattern : Option StrL)
    (templateSteps : List BatchStep) : BatchTask :=
  { name := batchGroupName namePattern namePre fullFilePath,
    steps := templateSteps.map (rewriteStep sourcePath fullFilePath namePre) }

/-- The template step of spec scenario C: `outputFileName`
`Transformed.tsx`, one file input `src ↦ C:\old\Foo.jsp`, and output folder
`C:\out`. -/
def scenarioCStep : BatchStep :=
  { fileInputs := [⟨str "src", str "C:\\old\\Foo.jsp"⟩],
    outputFileName := str "Transformed.tsx",
    outputFolder := str "C:\\out" }

/-- The task scenario C materializes: selection
`(sourcePath = C:\root, file = sub\bar.jsp)`, `namePrefix = Task-`. -/
def scenarioCTask : BatchTask :=
  materializeTask (str "C:\\root") (str "sub\\bar.jsp") (str "Task-") none [scenarioCStep]

/-- The file-path map of the C5 example: declared files `A` and `B`. -/
def mapAB : List (StrL × StrL) :=
  [(str "A", str "C:\\files\\a.txt"), (str "B", str "C:\\files\\b.txt")]

/-- A stored template whose single step still carries runtime state
(`status = success`, a result) at save time. -/
def dirtyTemplate : CfgTemplate := ⟨[⟨[⟨.success, some true⟩]⟩]⟩

/-- The state a (sub)execution ends in, whatever the outcome. -/
def resState : ExecRes → RunState
  | .okR st => st
  | .thrown st => st
  | .fuelOut st => st

/-- No step of the state is marked `skipped`. -/
def NoSkip (st : RunState) : Prop :=
  ∀ pr ∈ st.statuses, pr.2 ≠ StepStatus.skipped

/-- The exact state `executeWorkflowWithRealAPI` ends in when `s1` of the
linear two-step workflow fails: `s1` is `error` with a failure result, the
run has thrown, and `s2` — never executed — is still `pending`. -/
def linearFailState : RunState :=
  { statuses := [(str "s1", .error), (str "s2", .pending)],
    results := [(str "s1", false)],
    executed := [],
    apiCalls := [str "s1"] }

/-- A standalone workflow that still carries runtime state at save time. -/
def dirtyWorkflow : CfgWorkflow := ⟨[⟨.running, some false⟩]⟩

/-!
## Claim theorems
-/

/-- C3, counterexample: on text with no fenced block the extractor returns
the input *unchanged*, not trimmed — `"  hello  "` comes back with its
padding, while the claim requires the trimmed `"hello"`. -/
theorem c3_counterexample :
    extractContentFromMarkdown (str "  hello  ") = str "  hello  " ∧
    jsTrim (str "  hello  ") = str "hello" ∧
    extractContentFromMarkdown (str "  hello  ") ≠ jsTrim (str "  hello  ") := by
  refine ⟨by decide, by decide, by decide⟩

/-- C3 (amended): when the LLM text contains a triple-backtick fenced block
(optionally prefixed by a language tag on the opening fence) the extractor
returns the contents of the first such block, trimmed — the spec's example
`"preface\n```tsx\nCODE\n```trailing"` yields exactly `CODE`, and a
tagless fence behaves the same; when the regex does not match (in
particular when the text has no triple backtick at all) the extractor
returns the entire text unchanged — without trimming. -/
theorem c3_extraction :
    extractContentFromMarkdown (str "preface\n```tsx\nCODE\n```trailing") = str "CODE" ∧
    extractContentFromMarkdown (str "before\n```\nX\n```\nafter") = str "X" ∧
    ∀ s, regexCapture s = none → extractContentFromMarkdown s = s := by
  refine ⟨by decide, by decide, ?_⟩
  intro s h
  simp [extractContentFromMarkdown, h]

/-- C3, witness: the no-match branch of `c3_extraction` applied to a
concrete fenceless text. -/
theorem c3_witness :
    extractContentFromMarkdown (str "plain text") = str "plain text" :=
  c3_extraction.2.2 (str "plain text") (by decide)

/-- C5, counterexample: a prompt input containing no `\x7b\x7bname\x7d\x7d`
token is emitted as a single verbatim prompt segment — `"  alpha  "` keeps
its padding, while the claim requires trimmed non-empty text, i.e.
`prompt("alpha")`. -/
theorem c5_counterexample :
    processPromptContent mapAB (str "  alpha  ") = .ok [.promptSeg (str "  alpha  ")] ∧
    jsTrim (str "  alpha  ") = str "alpha" ∧
    (Except.ok [Segment.promptSeg (str "  alpha  ")] : Except StrL (List Segment)) ≠
      .ok [.promptSeg (str "alpha")] := by
  refine ⟨by decide, by decide, by decide⟩

/-- C5 (amended): for a prompt input containing tokens, the content is
split on its `\x7b\x7bname\x7d\x7d` tokens in left-to-right order, trimmed
non-empty text between tokens becoming prompt segments and each token a
file segment carrying the mapped path — the example
`"alpha \x7b\x7bA\x7d\x7d beta \x7b\x7bB\x7d\x7d gamma"` yields exactly
`[prompt alpha, file pathOfA, prompt beta, file pathOfB, prompt gamma]` —
and a token naming an undeclared file fails the step; a prompt input with
no token, however, is emitted as one verbatim (untrimmed) prompt
segment. -/
theorem c5_interleaving :
    processPromptContent mapAB (str "alpha \x7b\x7bA\x7d\x7d beta \x7b\x7bB\x7d\x7d gamma") =
      .ok [.promptSeg (str "alpha"), .fileSeg (str "C:\\files\\a.txt"),
           .promptSeg (str "beta"), .fileSeg (str "C:\\files\\b.txt"),
           .promptSeg (str "gamma")] ∧
    processPromptContent mapAB (str "x \x7b\x7bC\x7d\x7d y") = .error (str "C") ∧
    ∀ m content, scanTokens content = [] →
      processPromptContent m content = .ok [.promptSeg content] := by
  refine ⟨by decide, by decide, ?_⟩
  intro m content h
  simp [processPromptContent, h]

/-- C5, witness: the no-token branch of `c5_interleaving` applied to a
concrete token-free prompt. -/
theorem c5_witness :
    processPromptContent mapAB (str "hello") = .ok [.promptSeg (str "hello")] :=
  c5_interleaving.2.2 mapAB (str "hello") (by decide)

/-- C6, counterexample: `saveConfig` writes the `workflowGroupTemplates`
list as is — a template step that is `success` with a result at save time
is persisted exactly so, violating the claimed recursive purity. -/
theorem c6_counterexample :
    (saveConfig ⟨[], [], []⟩ [] [dirtyTemplate]).workflowGroupTemplates = [dirtyTemplate] ∧
    templatesPure [dirtyTemplate] = false := by
  refine ⟨rfl, by decide⟩

/-- C6 (amended): on every save, the steps under
`workflowGroups[*].template.workflows[*].steps` are reset to `pending` with
no result, but the stored templates (`workflowGroupTemplates`) are written
exactly as passed and the document's standalone `workflows` key is carried
through from the loaded document unchanged — neither is stripped. -/
theorem c6_save_purity (existing : MultiCfg) (newGroups : List CfgGroup)
    (effectiveTemplates : List CfgTemplate) :
    groupsPure (saveConfig existing newGroups effectiveTemplates).workflowGroups = true ∧
    (saveConfig existing newGroups effectiveTemplates).workflowGroupTemplates =
      effectiveTemplates ∧
    (saveConfig existing newGroups effectiveTemplates).workflows = existing.workflows := by
  refine ⟨?_, rfl, rfl⟩
  simp only [saveConfig, groupsPure, List.all_map, List.all_eq_true]
  intro g hg
  rcases hgt : g.template with _ | t
  · simp [stripGroup, hgt]
  · simp [stripGroup, hgt, workflowsPure, stripStep, List.all_map]

/-- C9, counterexample: materializing scenario C produces the task name
`Task--Bar` (the source inserts its own dash after the `namePrefix`), not
`Task-Bar`, and the step's file-input path `C:\old\sub\bar.jsp` (the input
is named `src`, so the `jsp` override never fires), not
`C:\root\sub\bar.jsp`. -/
theorem c9_counterexample :
    scenarioCTask.name = str "Task--Bar" ∧
    str "Task--Bar" ≠ str "Task-Bar" ∧
    (scenarioCTask.steps.map fun s => s.fileInputs.map BatchFileInput.path) =
      [[str "C:\\old\\sub\\bar.jsp"]] ∧
    str "C:\\old\\sub\\bar.jsp" ≠ str "C:\\root\\sub\\bar.jsp" := by
  refine ⟨by decide, by decide, by decide, by decide⟩

/-- C9 (amended): materializing the scenario-C template over the selection
`(sourcePath = C:\root, file = sub\bar.jsp)` with `namePrefix = Task-`
produces exactly one task named `Task--Bar` whose step has
`fileInputs[0].path = C:\old\sub\bar.jsp` (rewritten in the template's own
directory; the `jsp` override applies only to inputs named `jsp`),
`outputFileName = Task-Bar.tsx`, and `outputFolder = C:\out\sub`
(the original folder suffixed with `sub`). -/
theorem c9_materialize :
    scenarioCTask =
      ⟨str "Task--Bar",
       [{ fileInputs := [⟨str "src", str "C:\\old\\sub\\bar.jsp"⟩],
          outputFileName := str "Task-Bar.tsx",
          outputFolder := str "C:\\out\\sub" }]⟩ := by
  decide

/-- One length-truncated response makes the loop push the assistant's
partial content plus the continuation prompt and recurse. -/
theorem runDirectLoop_length_step (ca : StrL) (rs : List StreamResp) (st : DirectState) :
    runDirectLoop (lengthResp ca :: rs) st =
      runDirectLoop rs
        { messages := st.messages ++
            [⟨.assistant, ca⟩, ⟨.user, continuationPrompt⟩],
          aiContent := st.aiContent ++ ca,
          requests := st.requests + 1,
          finishReason := some (str "length") } := by
  simp [runDirectLoop, lengthResp]

/-- Requests issued when the loop consumes `n` length-truncated responses
followed by one stop: always `n + 1`, for every `n` — the loop has no
ceiling. -/
theorem runDirectLoop_requests (ca cb : StrL) :
    ∀ (n : Nat) (st : DirectState),
      (runDirectLoop (List.replicate n (lengthResp ca) ++ [stopResp cb]) st).map
        DirectState.requests = some (st.requests + n + 1) := by
  intro n
  induction n with
  | zero =>
    intro st
    simp only [List.replicate, List.nil_append, runDirectLoop, stopResp]
    rw [if_neg (by decide)]
    simp
  | succ k ih =>
    intro st
    rw [List.replicate_succ, List.cons_append, runDirectLoop_length_step, ih]
    simp only [Option.some.injEq]
    omega

/-- C4, counterexample: fed nine consecutive `finish_reason = length`
responses and then a `stop`, the loop issues ten completion requests — it
does not stop after a ceiling of 8 re-issues (which would bound the total
at nine requests), and no warning of any kind exists in the loop. -/
theorem c4_counterexample :
    (runDirectLoop (List.replicate 9 (lengthResp (str "x")) ++ [stopResp (str "y")])
        (initDirect [])).map DirectState.requests = some 10 ∧
    ¬ (10 ≤ 1 + 8 : Prop) := by
  refine ⟨?_, by omega⟩
  have h := runDirectLoop_requests (str "x") (str "y") 9 (initDirect [])
  simpa [initDirect] using h

/-- C4 (amended): whenever a completion ends with `finish_reason = length`,
the client appends the accumulated assistant content and the fixed user
continuation prompt to the message list and re-issues the request,
repeating until the finish reason is no longer `length` — with no
continuation ceiling and no warning: `n` consecutive length-truncated
responses always cause exactly `n + 1` requests, for every `n`. -/
theorem c4_continuation :
    (∀ (r : StreamResp) (rs : List StreamResp) (st : DirectState),
      r.finish = some (str "length") →
        runDirectLoop (r :: rs) st =
          runDirectLoop rs
            { messages := st.messages ++
                [⟨.assistant, r.content⟩, ⟨.user, continuationPrompt⟩],
              aiContent := st.aiContent ++ r.content,
              requests := st.requests + 1,
              finishReason := some (str "length") }) ∧
    ∀ (n : Nat) (st : DirectState) (ca cb : StrL),
      (runDirectLoop (List.replicate n (lengthResp ca) ++ [stopResp cb]) st).map
        DirectState.requests = some (st.requests + n + 1) := by
  constructor
  · intro r rs st h
    simp [runDirectLoop, h]
  · intro n st ca cb
    exact runDirectLoop_requests ca cb n st

/-- C4, witness: one length-truncated response makes the loop extend the
message list with the partial assistant content and the continuation
prompt (first conjunct of `c4_continuation` at a concrete input), and two
length responses followed by a stop cost three requests. -/
theorem c4_witness :
    runDirectLoop [lengthResp (str "hi")] (initDirect []) =
      runDirectLoop []
        { messages := [⟨.assistant, str "hi"⟩, ⟨.user, continuationPrompt⟩],
          aiContent := str "hi",
          requests := 1,
          finishReason := some (str "length") } ∧
    (runDirectLoop (List.replicate 2 (lengthResp (str "a")) ++ [stopResp (str "b")])
        (initDirect [])).map DirectState.requests = some ((initDirect []).requests + 2 + 1) := by
  constructor
  · have h := c4_continuation.1 (lengthResp (str "hi")) [] (initDirect []) rfl
    simpa [initDirect] using h
  · exact c4_continuation.2 2 (initDirect []) (str "a") (str "b")

/-- C10: in the `/api/process-file` handler the output file is written only
after every file input has been read and the LLM reply has been received:
a failing input read yields the 400 input-not-found response with the
output directory already created but nothing written; an LLM failure
yields the 500 response, again with the directory created but nothing
written; only the success response carries a write, which follows the
directory creation. -/
theorem c10_write_only_after_read (fsRead llm : StrL → Option StrL)
    (inputs : Option (List PFInput)) (ofn ofd : StrL) :
    (∀ p, (processFile fsRead llm inputs ofn ofd).1 = .inputNotFound p →
      (processFile fsRead llm inputs ofn ofd).2 = [.mkdirE ofd]) ∧
    ((processFile fsRead llm inputs ofn ofd).1 = .llmFailure →
      (processFile fsRead llm inputs ofn ofd).2 = [.mkdirE ofd]) ∧
    ((∀ p c, (processFile fsRead llm inputs ofn ofd).1 ≠ .ok p c) →
      writeEvents (processFile fsRead llm inputs ofn ofd).2 = []) ∧
    (∀ p c, (processFile fsRead llm inputs ofn ofd).1 = .ok p c →
      (processFile fsRead llm inputs ofn ofd).2 = [.mkdirE ofd, .writeE p c]) := by
  cases inputs with
  | none =>
    simp only [processFile]
    refine ⟨fun p h => ?_, fun h => ?_, fun _ => rfl, fun p c h => ?_⟩
    · simp at h
    · simp at h
    · simp at h
  | some ins =>
    simp only [processFile]
    by_cases hp : ofn = [] ∨ ofd = []
    · rw [if_pos hp]
      refine ⟨fun p h => ?_, fun h => ?_, fun _ => rfl, fun p c h => ?_⟩
      · simp at h
      · simp at h
      · simp at h
    · rw [if_neg hp]
      cases hr : readAllInputs fsRead ins with
      | error p =>
        dsimp only
        refine ⟨fun _ _ => rfl, fun h => ?_, fun _ => rfl, fun p c h => ?_⟩
        · simp at h
        · simp at h
      | ok parts =>
        dsimp only
        cases hl : llm (joinNl parts) with
        | none =>
          dsimp only
          refine ⟨fun p h => ?_, fun _ => rfl, fun _ => rfl, fun p c h => ?_⟩
          · simp at h
          · simp at h
        | some reply =>
          dsimp only
          refine ⟨fun p h => ?_, fun h => ?_, fun hno => ?_, fun p c h => ?_⟩
          · simp at h
          · simp at h
          · exact absurd rfl (hno _ _)
          · rw [(PFRes.ok.injEq _ _ _ _).mp h |>.1, (PFRes.ok.injEq _ _ _ _).mp h |>.2]
            rfl

/-- C10, witness: `c10_write_only_after_read` applied to a request whose
only file input cannot be read — the response is the 400 input-not-found
error and the only effect is the directory creation. -/
theorem c10_witness :
    (processFile (fun _ => none) (fun _ => some []) (some [PFInput.file (str "in.jsp")])
      (str "o.tsx") (str "out")).2 = [PFEff.mkdirE (str "out")] :=
  (c10_write_only_after_read (fun _ => none) (fun _ => some [])
      (some [PFInput.file (str "in.jsp")]) (str "o.tsx") (str "out")).1
    (str "in.jsp") (by decide)

/-- On the cyclic workflow, every execution job that the recursion can
reach burns the whole fuel budget without changing the state: the
dependency walk between `s1` and `s2` never terminates and never reaches a
step body. -/
theorem cyclic_execStep_fuelOut (api : StrL → Bool) :
    ∀ (fuel : Nat) (st : RunState),
      st.executed.contains (str "s1") = false →
      st.executed.contains (str "s2") = false →
      execStep api cyclicWf fuel (.one cycS1) st = .fuelOut st ∧
      execStep api cyclicWf fuel (.one cycS2) st = .fuelOut st ∧
      execStep api cyclicWf fuel (.deps [str "s2"]) st = .fuelOut st ∧
      execStep api cyclicWf fuel (.deps [str "s1"]) st = .fuelOut st := by
  intro fuel
  induction fuel with
  | zero => exact fun st h1 h2 => ⟨rfl, rfl, rfl, rfl⟩
  | succ k ih =>
    intro st h1 h2
    obtain ⟨ih1, ih2, ih3, ih4⟩ := ih st h1 h2
    have hfind1 : cyclicWf.find? (fun s => s.id = str "s1") = some cycS1 := by decide
    have hfind2 : cyclicWf.find? (fun s => s.id = str "s2") = some cycS2 := by decide
    have hd1 : cycS1.dependencies = [str "s2"] := rfl
    have hd2 : cycS2.dependencies = [str "s1"] := rfl
    refine ⟨?_, ?_, ?_, ?_⟩
    · simp only [execStep, hd1, ih3]
    · simp only [execStep, hd2, ih4]
    · simp only [execStep, h2, Bool.false_eq_true, if_false, hfind2, ih2]
    · simp only [execStep, h1, Bool.false_eq_true, if_false, hfind1, ih1]

/-- C1 (amended): the Runner performs no acyclicity validation at all — a
workflow whose `dependencies` contain a cycle is not rejected with any
`ConfigInvalid` error; instead the recursive dependency walk of
`executeStep` never terminates: for every fuel bound the run is still in
flight with the budget exhausted, the state unchanged from the reset —
every step still `pending`, no step result, and no LLM-backed processing
call issued. -/
theorem c1_no_acyclicity_check (api : StrL → Bool) (fuel : Nat) :
    runWorkflow api cyclicWf fuel = .fuelOut (initState cyclicWf) := by
  have hsort : sortByOrder cyclicWf = cyclicWf := by decide
  have hco : ((initState cyclicWf).executed.contains cycS1.id) = false := rfl
  obtain ⟨e1, _, _, _⟩ :=
    cyclic_execStep_fuelOut api fuel (initState cyclicWf) rfl rfl
  unfold runWorkflow
  rw [hsort]
  show runSteps api cyclicWf fuel (cycS1 :: [cycS2]) (initState cyclicWf) = _
  simp only [runSteps, hco, Bool.false_eq_true, if_false, e1]

/-- C1, counterexample: the cyclic workflow submitted to
`executeWorkflowWithRealAPI` (here with fuel bound 10) yields neither a
completed run nor any error — merely an exhausted recursion whose state
still has both steps `pending` and an empty list of issued processing
calls; no `ConfigInvalid` rejection exists in the code. -/
theorem c1_counterexample :
    runWorkflow (fun _ => true) cyclicWf 10 = .fuelOut (initState cyclicWf) ∧
    (initState cyclicWf).apiCalls = [] ∧
    statusOf (initState cyclicWf) (str "s1") = some .pending ∧
    statusOf (initState cyclicWf) (str "s2") = some .pending := by
  refine ⟨by decide, rfl, by decide, by decide⟩

/-- C1, witness: `c1_no_acyclicity_check` at a concrete API oracle and
fuel bound. -/
theorem c1_witness :
    runWorkflow (fun _ => true) cyclicWf 5 = .fuelOut (initState cyclicWf) :=
  c1_no_acyclicity_check (fun _ => true) 5

/-- `setStatus` with a non-`skipped` value preserves `NoSkip`. -/
theorem noSkip_setStatus {st : RunState} {sid : StrL} {v : StepStatus}
    (hv : v ≠ StepStatus.skipped) (h : NoSkip st) : NoSkip (setStatus st sid v) := by
  intro pr hpr
  simp only [setStatus, List.mem_map] at hpr
  obtain ⟨pr', hpr', heq⟩ := hpr
  subst heq
  split
  · exact hv
  · exact h pr' hpr'

/-- The step body only ever assigns `running`, `success`, or `error`. -/
theorem noSkip_execBody (api : StrL → Bool) (step : WfStep) (st : RunState)
    (h : NoSkip st) : NoSkip (resState (execBody api step st)) := by
  unfold execBody
  split
  · exact h
  · split
    · exact noSkip_setStatus (by decide) (noSkip_setStatus (by decide) h)
    · exact noSkip_setStatus (by decide) (noSkip_setStatus (by decide) h)

/-- The recursive `executeStep` never assigns `skipped`, at any fuel, for
any job. -/
theorem noSkip_execStep (api : StrL → Bool) (steps : List WfStep) :
    ∀ (fuel : Nat) (job : ExecJob) (st : RunState),
      NoSkip st → NoSkip (resState (execStep api steps fuel job st)) := by
  intro fuel
  induction fuel with
  | zero => exact fun job st h => h
  | succ k ih =>
    intro job st h
    cases job with
    | one step =>
      simp only [execStep]
      cases hres : execStep api steps k (.deps step.dependencies) st with
      | okR st' =>
        have h' := ih (.deps step.dependencies) st h
        rw [hres] at h'
        exact noSkip_execBody api step st' h'
      | thrown st' =>
        have h' := ih (.deps step.dependencies) st h
        rw [hres] at h'
        exact h'
      | fuelOut st' =>
        have h' := ih (.deps step.dependencies) st h
        rw [hres] at h'
        exact h'
    | deps ds =>
      cases ds with
      | nil => exact h
      | cons d rest =>
        simp only [execStep]
        split
        · exact ih (.deps rest) st h
        · cases hf : steps.find? (fun s => s.id = d) with
          | none => exact ih (.deps rest) st h
          | some dstep =>
            dsimp only
            cases hres : execStep api steps k (.one dstep) st with
            | okR st' =>
              have h' := ih (.one dstep) st h
              rw [hres] at h'
              exact ih (.deps rest) st' h'
            | thrown st' =>
              have h' := ih (.one dstep) st h
              rw [hres] at h'
              exact h'
            | fuelOut st' =>
              have h' := ih (.one dstep) st h
              rw [hres] at h'
              exact h'

/-- The top-level step loop never assigns `skipped`. -/
theorem noSkip_runSteps (api : StrL → Bool) (steps : List WfStep) (fuel : Nat) :
    ∀ (l : List WfStep) (st : RunState),
      NoSkip st → NoSkip (resState (runSteps api steps fuel l st)) := by
  intro l
  induction l with
  | nil => exact fun st h => h
  | cons s rest ih =>
    intro st h
    simp only [runSteps]
    split
    · exact ih st h
    · cases hres : execStep api steps fuel (.one s) st with
      | okR st' =>
        have h' := noSkip_execStep api steps fuel (.one s) st h
        rw [hres] at h'
        exact ih st' h'
      | thrown st' =>
        have h' := noSkip_execStep api steps fuel (.one s) st h
        rw [hres] at h'
        exact h'
      | fuelOut st' =>
        have h' := noSkip_execStep api steps fuel (.one s) st h
        rw [hres] at h'
        exact h'

/-- The reset state marks every step `pending`. -/
theorem noSkip_initState (wf : List WfStep) : NoSkip (initState wf) := by
  intro pr hpr
  simp only [initState, List.mem_map] at hpr
  obtain ⟨s, _, heq⟩ := hpr
  subst heq
  simp

/-- C2, counterexample: in the linear workflow `s1 → s2`, when `s1`'s
processing call fails the run aborts by re-thrown error; `s2` is left with
status `pending` — it is never marked `skipped`, no message naming the
failed ancestor is attached to it, and it never reaches a terminal
status. -/
theorem c2_counterexample :
    runWorkflow apiFailS1 linearWf 10 = .thrown linearFailState ∧
    statusOf linearFailState (str "s2") = some .pending ∧
    statusOf linearFailState (str "s2") ≠ some .skipped := by
  refine ⟨by decide, by decide, by decide⟩

/-- C2 (amended): when a step of a running workflow fails, the runner marks
that step `error` and aborts the whole run by re-throwing; every
not-yet-executed step keeps status `pending`, and no code path ever assigns
status `skipped` to any step — at any fuel, for any workflow and any API
outcome, the run's final state contains no `skipped` step. -/
theorem c2_no_skipped :
    (∀ (api : StrL → Bool) (wf : List WfStep) (fuel : Nat),
      NoSkip (resState (runWorkflow api wf fuel))) ∧
    runWorkflow apiFailS1 linearWf 10 = .thrown linearFailState ∧
    statusOf linearFailState (str "s1") = some .error ∧
    statusOf linearFailState (str "s2") = some .pending := by
  refine ⟨?_, by decide, by decide, by decide⟩
  intro api wf fuel
  unfold runWorkflow
  exact noSkip_runSteps api (sortByOrder wf) fuel (sortByOrder wf) (initState wf)
    (noSkip_initState wf)

/-- C2, witness: `c2_no_skipped` at the concrete failing linear run — the
final state contains no skipped step. -/
theorem c2_witness :
    NoSkip (resState (runWorkflow apiFailS1 linearWf 10)) :=
  c2_no_skipped.1 apiFailS1 linearWf 10

/-- C6, witness: `c6_save_purity` at a concrete save — the dirty template
list and an existing document's dirty standalone workflow pass through
unchanged. -/
theorem c6_witness :
    (saveConfig ⟨[], [], [dirtyWorkflow]⟩ [] [dirtyTemplate]).workflowGroupTemplates =
      [dirtyTemplate] ∧
    (saveConfig ⟨[], [], [dirtyWorkflow]⟩ [] [dirtyTemplate]).workflows = [dirtyWorkflow] :=
  ⟨(c6_save_purity ⟨[], [], [dirtyWorkflow]⟩ [] [dirtyTemplate]).2.1,
   (c6_save_purity ⟨[], [], [dirtyWorkflow]⟩ [] [dirtyTemplate]).2.2⟩

/-- C7: a task (one that passed the existence/executable checks) is
started iff the number of currently-executing tasks is strictly below
`maxConcurrentTasks` (6), and rejected without queueing otherwise; the
batch executor spawns at most `maxConcurrentTasks` workers; consequently
from the idle start, every reachable executing-set of the scheduler has at
most `maxConcurrentTasks` running tasks. -/
theorem c7_concurrency_cap :
    (∀ (ex : List StrL) (taskId : StrL),
      (executeTaskGuard ex taskId).isSome ↔ ex.length < maxConcurrentTasks) ∧
    (∀ n : Nat, concurrentCount n ≤ maxConcurrentTasks) ∧
    (∀ ex : List StrL, SchedReachable ex → ex.length ≤ maxConcurrentTasks) := by
  refine ⟨?_, ?_, ?_⟩
  · intro ex taskId
    unfold executeTaskGuard
    by_cases h : ex.length ≥ maxConcurrentTasks
    · rw [if_pos h]
      simp
      omega
    · rw [if_neg h]
      simp
      omega
  · intro n
    exact min_le_left _ _
  · intro ex h
    induction h with
    | refl => simp
    | tail hsteps hstep ih =>
      cases hstep with
      | enter taskId ex' hadm =>
        unfold executeTaskGuard at hadm
        split at hadm
        · cases hadm
        · cases hadm
          simp only [List.length_cons]
          omega
      | finish taskId =>
        exact le_trans (List.Sublist.length_le (List.erase_sublist taskId _)) ih

/-- C7, witness: `c7_concurrency_cap` applied to the empty executing set —
the guard lets a first task through, and the idle start satisfies the cap. -/
theorem c7_witness :
    ((executeTaskGuard [] (str "t")).isSome ↔ ([] : List StrL).length < maxConcurrentTasks) ∧
    ([] : List StrL).length ≤ maxConcurrentTasks :=
  ⟨c7_concurrency_cap.1 [] (str "t"),
   c7_concurrency_cap.2.2 [] Relation.ReflTransGen.refl⟩

/-- C8, counterexample: a task with 3 workflows is stopped right after
workflow #1 completes — reaching the state `⟨1, stopped, idle, endTime⟩` —
and from that stopped state the runner nevertheless executes workflows #2
and #3, reaching `wfDone = 3`: the remaining workflows do run after the
stop, because no abort signal is consulted between workflows. -/
theorem c8_counterexample :
    TaskReachable 3 ⟨1, true, .idle, true⟩ ∧
    Relation.ReflTransGen (TaskStep 3) ⟨1, true, .idle, true⟩ ⟨3, true, .idle, true⟩ := by
  constructor
  · exact Relation.ReflTransGen.tail
      (Relation.ReflTransGen.tail Relation.ReflTransGen.refl
        (TaskStep.execWorkflow taskRunInit (by decide)))
      (TaskStep.stop ⟨1, false, .running, false⟩)
  · exact Relation.ReflTransGen.tail
      (Relation.ReflTransGen.tail Relation.ReflTransGen.refl
        (TaskStep.execWorkflow ⟨1, true, .idle, true⟩ (by decide)))
      (TaskStep.execWorkflow ⟨2, true, .idle, true⟩ (by decide))

/-- C8 (amended): `stopTask` immediately sets the task's status to `idle`
and records `executionResults.endTime` — but it installs no abort signal:
the workflow-execution transition of `executeTask`'s loop remains enabled
in every state with workflows left, stopped or not, so the remaining
workflows of a stopped task still run. -/
theorem c8_stop_does_not_cancel :
    (∀ (total : Nat) (s : TaskRunState),
      TaskStep total s (stopTaskEffect s) ∧
      (stopTaskEffect s).status = .idle ∧ (stopTaskEffect s).endTimeSet = true) ∧
    (∀ (total : Nat) (s : TaskRunState), s.wfDone < total →
      TaskStep total s { s with wfDone := s.wfDone + 1 }) := by
  refine ⟨fun total s => ⟨TaskStep.stop s, rfl, rfl⟩, fun total s h => TaskStep.execWorkflow s h⟩

/-- C8, witness: `c8_stop_does_not_cancel` applied to the stopped state
after workflow #1 of 3 — the execution transition for workflow #2 is still
enabled, and the stop effect on the initial state is `idle` with an end
time. -/
theorem c8_witness :
    TaskStep 3 ⟨1, true, .idle, true⟩ ⟨2, true, .idle, true⟩ ∧
    (stopTaskEffect taskRunInit).status = .idle :=
  ⟨c8_stop_does_not_cancel.2 3 ⟨1, true, .idle, true⟩ (by decide),
   (c8_stop_does_not_cancel.1 3 taskRunInit).2.1⟩

end NodeTools
